import Mathlib

/-!
Verification of the permit post-processing pipeline
(`permits_post_processing`): a shallow embedding of the three city
post-processors (Arlington, Austin, El Paso) and the shared base
utilities, together with proofs about the behaviours described in the
specification.

Modelling conventions:
* a pandas `DataFrame` is modelled per processor as a table structure
  holding a column-presence description plus a list of rows; cell values
  are `Option`-typed (`none` models `NaN`/`None`);
* numeric cells are modelled as `Int` (the code always funnels them
  through `astype(int)` before use);
* operations that can raise (`KeyError` on a missing column,
  `ValueError`/`ParserError` from non-coerced casts) return
  `Except String _`;
* the wall-clock read `pd.to_datetime("now")` is modelled by an explicit
  reference date parameter;
* flexible `pd.to_datetime` string parsing is modelled as ISO
  `YYYY-MM-DD` parsing (the only unambiguous format exercised here);
  a string rejected by the model parser models a string pandas cannot
  parse;
* the `permits_number_before` / `permits_number_after` bookkeeping of
  `PostProcessingResult` and the optional file write of the result are
  not modelled: the claims reference only the transformed table and, for
  El Paso, the state of the caller's frame after the call.
-/

/-! ## Decimal representation of naturals (models Python `str(i)`) -/

/-- Fuel-driven digit expansion (structural recursion, so that concrete
evaluation reduces in the kernel). -/
def natDigitsAux : Nat → Nat → List Char
  | 0, _ => []
  | fuel + 1, n =>
    if n < 10 then [Char.ofNat (48 + n)]
    else natDigitsAux fuel (n / 10) ++ [Char.ofNat (48 + n % 10)]

/-- Decimal digit characters of a natural number, most significant first;
models Python `str(i)` for a non-negative index `i`. -/
def natDigits (n : Nat) : List Char :=
  natDigitsAux (n + 1) n

/-- Decimal string of a natural number; models Python `str(i)`. -/
def natToString (n : Nat) : String :=
  String.mk (natDigits n)

theorem natDigitsAux_congr :
    ∀ f₁ : Nat, ∀ {f₂ n : Nat}, n < f₁ → n < f₂ → natDigitsAux f₁ n = natDigitsAux f₂ n := by
  intro f₁
  induction f₁ with
  | zero => omega
  | succ f ih =>
    intro f₂ n h₁ h₂
    obtain ⟨g, rfl⟩ : ∃ g, f₂ = g + 1 := ⟨f₂ - 1, by omega⟩
    by_cases hn : n < 10
    · simp [natDigitsAux, hn]
    · have hd : n / 10 < f := by
        have := Nat.div_lt_self (show 0 < n by omega) (show 1 < 10 by omega)
        omega
      have hd2 : n / 10 < g := by
        have := Nat.div_lt_self (show 0 < n by omega) (show 1 < 10 by omega)
        omega
      simp only [natDigitsAux, if_neg hn]
      rw [ih hd hd2]

theorem natDigits_eq (n : Nat) :
    natDigits n = if n < 10 then [Char.ofNat (48 + n)]
      else natDigits (n / 10) ++ [Char.ofNat (48 + n % 10)] := by
  show natDigitsAux (n + 1) n = _
  by_cases hn : n < 10
  · simp [natDigitsAux, hn]
  · have hd : n / 10 < n := Nat.div_lt_self (by omega) (by omega)
    simp only [natDigitsAux, if_neg hn]
    rw [@natDigitsAux_congr n (n / 10 + 1) (n / 10) (by omega) (by omega)]
    rfl

theorem natDigits_ne_nil (n : Nat) : natDigits n ≠ [] := by
  rw [natDigits_eq]
  split <;> simp

theorem natDigits_all_digit (n : Nat) : ∀ c ∈ natDigits n, c.isDigit := by
  induction n using Nat.strong_induction_on with
  | _ n ih =>
    rw [natDigits_eq]
    split
    · next h =>
      intro c hc
      simp at hc
      subst hc
      interval_cases n <;> decide
    · next h =>
      intro c hc
      simp at hc
      rcases hc with hc | hc
      · exact ih (n / 10) (Nat.div_lt_self (by omega) (by omega)) c hc
      · subst hc
        have hlt : n % 10 < 10 := Nat.mod_lt _ (by omega)
        set r := n % 10 with hr
        interval_cases r <;> decide

theorem char_ofNat_digit_inj {a b : Nat} (ha : a < 10) (hb : b < 10)
    (h : Char.ofNat (48 + a) = Char.ofNat (48 + b)) : a = b := by
  interval_cases a <;> interval_cases b <;> first | rfl | (exact absurd h (by decide))

theorem natDigits_inj : ∀ {m n : Nat}, natDigits m = natDigits n → m = n := by
  intro m
  induction m using Nat.strong_induction_on with
  | _ m ih =>
    intro n h
    by_cases hm : m < 10 <;> by_cases hn : n < 10
    · rw [natDigits_eq m, natDigits_eq n, if_pos hm, if_pos hn] at h
      simp at h
      exact char_ofNat_digit_inj hm hn h
    · rw [natDigits_eq m, natDigits_eq n, if_pos hm, if_neg hn] at h
      have hpos : 0 < (natDigits (n / 10)).length :=
        List.length_pos.mpr (natDigits_ne_nil _)
      have hlen := congrArg List.length h
      simp only [List.length_append, List.length_singleton] at hlen
      omega
    · rw [natDigits_eq m, natDigits_eq n, if_neg hm, if_pos hn] at h
      have hpos : 0 < (natDigits (m / 10)).length :=
        List.length_pos.mpr (natDigits_ne_nil _)
      have hlen := congrArg List.length h
      simp only [List.length_append, List.length_singleton] at hlen
      omega
    · rw [natDigits_eq m, natDigits_eq n, if_neg hm, if_neg hn] at h
      have h2 := List.append_inj' h (by simp)
      have hdiv : m / 10 = n / 10 :=
        ih (m / 10) (Nat.div_lt_self (by omega) (by omega)) h2.1
      have hmod : m % 10 = n % 10 := by
        have h3 := h2.2
        simp at h3
        exact char_ofNat_digit_inj (Nat.mod_lt _ (by omega)) (Nat.mod_lt _ (by omega)) h3
      omega

theorem natToString_inj {m n : Nat} (h : natToString m = natToString n) : m = n := by
  apply natDigits_inj
  have := congrArg String.data h
  simpa [natToString] using this

/-! ## Gregorian dates

`pd.to_datetime` values are modelled as civil dates; elapsed days are
computed through a rata-die style day count (Hinnant's `days_from_civil`,
restricted to years ≥ 1, which covers every date the pipeline sees). -/

structure Date where
  year : Nat
  month : Nat
  day : Nat
deriving DecidableEq, Repr

def isLeapYear (y : Nat) : Bool :=
  (y % 4 == 0 && y % 100 != 0) || (y % 400 == 0)

def daysInMonth (y m : Nat) : Nat :=
  if m == 2 then (if isLeapYear y then 29 else 28)
  else if m == 4 || m == 6 || m == 9 || m == 11 then 30
  else 31

def validDate (d : Date) : Bool :=
  1 ≤ d.month && d.month ≤ 12 && 1 ≤ d.day && d.day ≤ daysInMonth d.year d.month
    && 1 ≤ d.year

/-- Day count of a civil date (valid for `year ≥ 1`); differences of two
day counts give elapsed days, modelling `(t1 - t2).dt.days`. -/
def rataDie (d : Date) : Nat :=
  let y := if d.month ≤ 2 then d.year - 1 else d.year
  let era := y / 400
  let yoe := y % 400
  let mp := (d.month + 9) % 12
  let doy := (153 * mp + 2) / 5 + (d.day - 1)
  let doe := yoe * 365 + yoe / 4 - yoe / 100 + doy
  era * 146097 + doe

/-- Elapsed days between a reference date and a stored date; models
`(pd.to_datetime("now") - date).dt.days`. -/
def daysBetween (now d : Date) : Int :=
  (rataDie now : Int) - (rataDie d : Int)

/-- Split a character list at a separator character; models Python
`str.split(sep)` for a one-character separator. -/
def splitCharAux (sep : Char) : List Char → List Char → List String
  | [], acc => [String.mk acc.reverse]
  | c :: cs, acc =>
    if c = sep then String.mk acc.reverse :: splitCharAux sep cs []
    else splitCharAux sep cs (c :: acc)

def splitChar (sep : Char) (s : String) : List String :=
  splitCharAux sep s.data []

/-- Value of a digit string, most significant digit first. -/
def digitsToNat (cs : List Char) : Nat :=
  cs.foldl (fun a c => a * 10 + (c.toNat - 48)) 0

def parseNatDigits (s : String) : Option Nat :=
  if s.data ≠ [] ∧ s.data.all Char.isDigit then some (digitsToNat s.data) else none

/-- Parse `MM/DD/YYYY` (as `pd.to_datetime(..., format='%m/%d/%Y')` does,
including calendar validity checking); `none` models `NaT`. -/
def parseDateMDY (s : String) : Option Date :=
  match splitChar '/' s with
  | [ms, ds, ys] =>
    match parseNatDigits ms, parseNatDigits ds, parseNatDigits ys with
    | some m, some d, some y =>
      if ms.length ≤ 2 && ds.length ≤ 2 && ys.length == 4 && validDate ⟨y, m, d⟩ then
        some ⟨y, m, d⟩
      else none
    | _, _, _ => none
  | _ => none

/-- Parse `DD/MM/YYYY` (as `pd.to_datetime(..., format='%d/%m/%Y')` does). -/
def parseDateDMY (s : String) : Option Date :=
  match splitChar '/' s with
  | [ds, ms, ys] =>
    match parseNatDigits ds, parseNatDigits ms, parseNatDigits ys with
    | some d, some m, some y =>
      if ds.length ≤ 2 && ms.length ≤ 2 && ys.length == 4 && validDate ⟨y, m, d⟩ then
        some ⟨y, m, d⟩
      else none
    | _, _, _ => none
  | _ => none

/-- Parse ISO `YYYY-MM-DD`; models format-free `pd.to_datetime` on the
unambiguous ISO strings the model admits. -/
def parseDateISO (s : String) : Option Date :=
  match splitChar '-' s with
  | [ys, ms, ds] =>
    match parseNatDigits ys, parseNatDigits ms, parseNatDigits ds with
    | some y, some m, some d =>
      if ys.length == 4 && ms.length == 2 && ds.length == 2 && validDate ⟨y, m, d⟩ then
        some ⟨y, m, d⟩
      else none
    | _, _, _ => none
  | _ => none

def pad2 (n : Nat) : String :=
  if n < 10 then "0" ++ natToString n else natToString n

/-- Format a date as `DD/MM/YYYY`, modelling `.dt.strftime('%d/%m/%Y')`. -/
def formatDateDMY (d : Date) : String :=
  pad2 d.day ++ "/" ++ pad2 d.month ++ "/" ++ natToString d.year

/-! ## Shared base utilities (`permits_post_processing/base.py`) -/

/-- The column separator used by the shared aggregator. -/
def andSeparator : String := " \n\n<AND> "

/-- `BasePostProcessor.concatenate_values`: if every value of the group is
null (`np.all(pd.isna(values))`) return `""`; otherwise stringify every
value (pandas renders a null as `"nan"`) and join with `" \n\n<AND> "`. -/
def concatenate_values (values : List (Option String)) : String :=
  if values.all Option.isNone then ""
  else String.intercalate andSeparator (values.map (fun v => v.getD "nan"))

/-! ## Bucket classification

All three processors build `pd.cut(days, bins=[-1, 90, 180],
labels=["recently_issued", "primary_backlog"])`; `pd.cut` uses intervals
closed on the right, open on the left. -/

/-- `pd.cut` with bins `[-1, 90, 180]` and the two backlog labels. -/
def cutBucket (days : Int) : Option String :=
  if -1 < days && days ≤ 90 then some "recently_issued"
  else if 90 < days && days ≤ 180 then some "primary_backlog"
  else none

/-! ## Group-by machinery

`DataFrame.groupby(key, sort=False)` iterates groups in first-seen key
order; with the default `sort=True` pandas reorders the groups by
ascending key. -/

/-- Distinct keys in first-seen order. -/
def firstSeenKeys {κ : Type} [DecidableEq κ] : List κ → List κ
  | [] => []
  | k :: ks => k :: (firstSeenKeys ks).filter (· ≠ k)

/-- `groupby(key, sort=False)`: the groups in first-seen key order, each
with all of its rows in original row order. -/
def stableGroupBy {ρ κ : Type} [DecidableEq κ] (key : ρ → κ) (rows : List ρ) :
    List (κ × List ρ) :=
  (firstSeenKeys (rows.map key)).map (fun k => (k, rows.filter (fun r => key r = k)))

/-- Lexicographic comparison of character lists by code point; the string
order pandas sorts group keys by. -/
def charListLe : List Char → List Char → Bool
  | [], _ => true
  | _ :: _, [] => false
  | a :: as, b :: bs =>
    if a.toNat < b.toNat then true
    else if b.toNat < a.toNat then false
    else charListLe as bs

/-- String order used for pandas' sorted group keys. -/
def strLe (a b : String) : Prop := charListLe a.data b.data = true

instance : DecidableRel strLe := fun a b => by
  unfold strLe
  infer_instance

theorem charListLe_total : ∀ a b : List Char, charListLe a b ∨ charListLe b a := by
  intro a
  induction a with
  | nil => intro b; left; rfl
  | cons x xs ih =>
    intro b
    cases b with
    | nil => right; rfl
    | cons y ys =>
      by_cases hxy : x.toNat < y.toNat
      · left; simp [charListLe, hxy]
      · by_cases hyx : y.toNat < x.toNat
        · right; simp [charListLe, hyx]
        · rcases ih ys with h | h
          · left; simpa [charListLe, hxy, hyx] using h
          · right; simpa [charListLe, hxy, hyx] using h

theorem charListLe_trans :
    ∀ a b c : List Char, charListLe a b → charListLe b c → charListLe a c := by
  intro a
  induction a with
  | nil => intro b c _ _; rfl
  | cons x xs ih =>
    intro b c hab hbc
    cases b with
    | nil => simp [charListLe] at hab
    | cons y ys =>
      cases c with
      | nil => simp [charListLe] at hbc
      | cons z zs =>
        simp only [charListLe] at hab hbc ⊢
        by_cases hxy : x.toNat < y.toNat <;> by_cases hyz : y.toNat < z.toNat
        · simp [show x.toNat < z.toNat by omega]
        · simp only [if_pos hxy] at hab
          simp only [if_neg hyz] at hbc
          by_cases hzy : z.toNat < y.toNat
          · simp [if_pos hzy] at hbc
          · have : y.toNat = z.toNat := by omega
            simp [show x.toNat < z.toNat by omega]
        · simp only [if_neg hxy] at hab
          by_cases hyx : y.toNat < x.toNat
          · simp [if_pos hyx] at hab
          · have hxyEq : x.toNat = y.toNat := by omega
            simp [show x.toNat < z.toNat by omega]
        · simp only [if_neg hxy] at hab
          by_cases hyx : y.toNat < x.toNat
          · simp [if_pos hyx] at hab
          · simp only [if_neg hyx] at hab
            simp only [if_neg hyz] at hbc
            by_cases hzy : z.toNat < y.toNat
            · simp [if_pos hzy] at hbc
            · have hxyEq : x.toNat = y.toNat := by omega
              have hyzEq : y.toNat = z.toNat := by omega
              simp only [if_neg hzy] at hbc
              rw [if_neg (show ¬x.toNat < z.toNat by omega),
                if_neg (show ¬z.toNat < x.toNat by omega)]
              exact ih ys zs hab hbc

instance : IsTotal String strLe :=
  ⟨fun a b => by
    rcases charListLe_total a.data b.data with h | h
    · exact Or.inl h
    · exact Or.inr h⟩

instance : IsTrans String strLe :=
  ⟨fun a b c hab hbc => charListLe_trans a.data b.data c.data hab hbc⟩

/-- `groupby(key)` with pandas' default `sort=True`: groups reordered by
ascending key. -/
def sortedGroupBy {ρ : Type} (key : ρ → String) (rows : List ρ) :
    List (String × List ρ) :=
  (stableGroupBy key rows).insertionSort (fun a b => strLe a.1 b.1)

theorem stableGroupBy_keys {ρ κ : Type} [DecidableEq κ] (key : ρ → κ) (rows : List ρ) :
    (stableGroupBy key rows).map Prod.fst = firstSeenKeys (rows.map key) := by
  unfold stableGroupBy
  rw [List.map_map]
  have hid : (Prod.fst ∘ fun k => (k, rows.filter (fun r => key r = k))) = id := by
    funext k
    rfl
  rw [hid, List.map_id]

theorem mem_firstSeenKeys {κ : Type} [DecidableEq κ] {k : κ} :
    ∀ {ks : List κ}, k ∈ firstSeenKeys ks → k ∈ ks := by
  intro ks
  induction ks with
  | nil => simp [firstSeenKeys]
  | cons a as ih =>
    intro h
    simp [firstSeenKeys] at h
    rcases h with h | h
    · simp [h]
    · exact List.mem_cons_of_mem _ (ih h.1)

/-! ## Python string helpers (ASCII semantics, structural recursion)

The pipeline only manipulates ASCII text; the helpers below model the
Python string methods it uses (`lower`, `title`, `strip`, `split`,
whitespace collapsing) so that concrete runs reduce in the kernel. -/

def pyWsChars : List Char := [' ', '\t', '\n', '\r', '\x0b', '\x0c']

def isPyWs (c : Char) : Bool := pyWsChars.contains c

def lowerChar (c : Char) : Char :=
  if 65 ≤ c.toNat ∧ c.toNat ≤ 90 then Char.ofNat (c.toNat + 32) else c

def upperChar (c : Char) : Char :=
  if 97 ≤ c.toNat ∧ c.toNat ≤ 122 then Char.ofNat (c.toNat - 32) else c

def isAsciiAlpha (c : Char) : Bool :=
  (65 ≤ c.toNat && c.toNat ≤ 90) || (97 ≤ c.toNat && c.toNat ≤ 122)

/-- Python `str.lower()` / pandas `.str.lower()`. -/
def lowerStr (s : String) : String := String.mk (s.data.map lowerChar)

/-- Python `str.strip(chars)`. -/
def stripChars (bad : List Char) (s : String) : String :=
  String.mk (((s.data.dropWhile (bad.contains ·)).reverse.dropWhile (bad.contains ·)).reverse)

/-- Python `str.strip()` (whitespace). -/
def pyStrip (s : String) : String := stripChars pyWsChars s

def titleAux : Bool → List Char → List Char
  | _, [] => []
  | prevAlpha, c :: cs =>
    (if isAsciiAlpha c then (if prevAlpha then lowerChar c else upperChar c) else c)
      :: titleAux (isAsciiAlpha c) cs

/-- Python `str.title()`. -/
def pyTitle (s : String) : String := String.mk (titleAux false s.data)

def splitWsAux : List Char → List Char → List String
  | [], acc => if acc.isEmpty then [] else [String.mk acc.reverse]
  | c :: cs, acc =>
    if isPyWs c then
      if acc.isEmpty then splitWsAux cs [] else String.mk acc.reverse :: splitWsAux cs []
    else splitWsAux cs (c :: acc)

/-- Python `str.split()` with no argument: split on whitespace runs,
dropping empty pieces. -/
def pySplitWs (s : String) : List String := splitWsAux s.data []

def collapseWsAux : Bool → List Char → List Char
  | _, [] => []
  | prevWs, c :: rest =>
    if isPyWs c then
      (if prevWs then collapseWsAux true rest else ' ' :: collapseWsAux true rest)
    else c :: collapseWsAux false rest

/-- `re.sub(r"\s+", " ", s)`. -/
def collapseWs (s : String) : String := String.mk (collapseWsAux false s.data)

/-- Case-sensitive prefix test (`str.startswith` / anchored `re.match`). -/
def startsWithCS (p s : String) : Bool := p.data.isPrefixOf s.data

/-- Case-insensitive prefix test (anchored `re.match(..., re.I)`). -/
def isPrefixOfCI (p s : String) : Bool :=
  (p.data.map lowerChar).isPrefixOf (s.data.map lowerChar)

/-! ## El Paso free-text contact extraction
(`processors/tx/el_paso/post_processor.py`, inner helpers of `process`) -/

/-- `^(Phone|Work Phone|Mobile Phone|Home Phone|E-?mail)` with `re.I`. -/
def isContactLabelLine (ln : String) : Bool :=
  ["phone", "work phone", "mobile phone", "home phone", "e-mail", "email"].any
    (fun p => isPrefixOfCI p ln)

/-- The second-line company guard of `_split_name_company`:
`^(Phone|Work Phone|Mobile Phone|Home Phone|E-?mail|Contractor General|LCCR)`
with `re.I`. -/
def isNameCompanyLabelLine (ln : String) : Bool :=
  isContactLabelLine ln || isPrefixOfCI "contractor general" ln || isPrefixOfCI "lccr" ln

def isLocalChar (c : Char) : Bool :=
  isAsciiAlpha c || c.isDigit || c = '.' || c = '_' || c = '%' || c = '+' || c = '-'

def isDomChar (c : Char) : Bool :=
  isAsciiAlpha c || c.isDigit || c = '.' || c = '-'

/-- Scan for a `.` followed by at least two ASCII letters. -/
def dotAlphaScan : List Char → Bool
  | c :: a :: b :: rest =>
    (c = '.' && isAsciiAlpha a && isAsciiAlpha b) || dotAlphaScan (a :: b :: rest)
  | _ => false

/-- Does the text after an `@` start with a domain that the email regex
`[A-Za-z0-9.\-]+\.[A-Za-z]{2,}` accepts? -/
def emailDomainOK (rest : List Char) : Bool :=
  match rest.takeWhile isDomChar with
  | [] => false
  | _ :: tail => dotAlphaScan tail

def containsEmailAux : Option Char → List Char → Bool
  | _, [] => false
  | prev, c :: rest =>
    if c = '@' && (match prev with | some p => isLocalChar p | none => false)
        && emailDomainOK rest then true
    else containsEmailAux (some c) rest

/-- Does `re.search` find the email pattern
`[A-Za-z0-9._%+\-]+@[A-Za-z0-9.\-]+\.[A-Za-z]{2,}` in the string? -/
def containsEmail (s : String) : Bool := containsEmailAux none s.data

/-- Last position of a `.` in the list that is followed by ≥ 2 ASCII
letters, as greedy `[dom]+` backtracking selects; returns the split of
the domain into the part up to that dot and the letters after it. -/
def greedyDomSplit (run : List Char) : Option (List Char × List Char) :=
  match run with
  | [] => none
  | c :: rest =>
    match greedyDomSplit rest with
    | some (pre, alphas) => some (c :: pre, alphas)
    | none =>
      match c, rest with
      | '.', a :: b :: _ =>
        if isAsciiAlpha a && isAsciiAlpha b then
          some ([c], rest.takeWhile isAsciiAlpha)
        else none
      | '.', _ => none
      | _, _ => none

def localRunBefore (prevRev : List Char) : List Char :=
  (prevRev.takeWhile isLocalChar).reverse

def extractEmailAux : List Char → List Char → Option String
  | _, [] => none
  | prevRev, c :: rest =>
    if c = '@' && (match prevRev with | p :: _ => isLocalChar p | [] => false) then
      let run := rest.takeWhile isDomChar
      match greedyDomSplit run with
      | some (pre, alphas) =>
        some (String.mk (localRunBefore prevRev ++ '@' :: (pre ++ alphas)))
      | none => extractEmailAux (c :: prevRev) rest
    else extractEmailAux (c :: prevRev) rest

/-- `_extract_email`: first match of the email pattern in the raw text. -/
def extract_email (text : Option String) : Option String :=
  match text with
  | none => none
  | some s => extractEmailAux [] s.data

structure Phones where
  phone : Option String
  work : Option String
  mobile : Option String
  home : Option String
deriving DecidableEq, Repr

def isPhoneClass (c : Char) : Bool :=
  c.isDigit || c = '-' || c = '(' || c = ')' || isPyWs c

/-- `re.search(label + r"\s*([0-9\-\(\)\s]+)", text, re.I)`: earliest
occurrence of the label followed by at least one character of the
captured class; returns the run of class characters after the label. -/
def searchLabelRun (label : List Char) : List Char → Option (List Char)
  | [] => none
  | c :: rest =>
    if label.isPrefixOf ((c :: rest).map lowerChar) then
      let run := ((c :: rest).drop label.length).takeWhile isPhoneClass
      if run.isEmpty then searchLabelRun label rest else some run
    else searchLabelRun label rest

def phoneFromLabel (label : String) (s : String) : Option String :=
  match searchLabelRun label.data s.data with
  | none => none
  | some run =>
    let ds := run.filter Char.isDigit
    if ds.isEmpty then none else some (String.mk ds)

/-- `_extract_phones`: per-label digit extraction; a non-string input is
treated as the empty string. -/
def extract_phones (text : Option String) : Phones :=
  let s := text.getD ""
  { home := phoneFromLabel "home phone:" s
    work := phoneFromLabel "work phone:" s
    mobile := phoneFromLabel "mobile phone:" s
    phone := phoneFromLabel "phone:" s }

/-- `_split_lines`: non-empty stripped lines of the block; a null or empty
block yields no lines. -/
def splitLines (text : Option String) : List String :=
  match text with
  | none => []
  | some s =>
    if s = "" then []
    else ((splitChar '\n' s).map pyStrip).filter (fun ln => ln ≠ "")

/-- The address-line filter of `_parse_contact_block` (lines 147-155):
drop `Contractor General`/`LCCR` boilerplate, label lines, and lines
containing an email. -/
def isAddressDropLine (ln : String) : Bool :=
  startsWithCS "Contractor General" ln || startsWithCS "LCCR" ln ||
    isContactLabelLine ln || containsEmail ln

/-- `_split_name_company`: first line is the person name (title-cased,
first token = first name, remaining tokens = last name), second line is
the company unless it matches the label guard, remainder is returned. -/
def splitNameCompany (lines : List String) :
    Option String × Option String × Option String × List String :=
  match lines with
  | [] => (none, none, none, [])
  | first :: restLines =>
    let tokens := pySplitWs first
    let firstName : Option String :=
      match tokens with
      | [] => none
      | t :: _ => some (pyTitle t)
    let lastName : Option String :=
      match tokens with
      | _ :: t₂ :: ts => some (pyTitle (String.intercalate " " (t₂ :: ts)))
      | _ => none
    match restLines with
    | [] => (firstName, lastName, none, [])
    | second :: rest2 =>
      if isNameCompanyLabelLine second then (firstName, lastName, none, second :: rest2)
      else (firstName, lastName, some second, rest2)

/-- `_normalize_address`: comma-join the stripped lines, collapse
whitespace, lowercase; empty results become null. -/
def normalize_address (lines : List String) : Option String :=
  match lines with
  | [] => none
  | _ =>
    let pieces := (lines.filter (fun p => p ≠ "" && pyStrip p ≠ "")).map
      (stripChars [',', ' '])
    let addr := pyStrip (collapseWs (String.intercalate ", " pieces))
    if addr = "" then none else some (lowerStr addr)

structure ContactEntity where
  first_name : Option String
  last_name : Option String
  company : Option String
  address : Option String
  email : Option String
  phone : Option String
  work : Option String
  mobile : Option String
  home : Option String
deriving DecidableEq, Repr

/-- `_parse_contact_block`. -/
def parse_contact_block (text : Option String) : ContactEntity :=
  let lines := splitLines text
  let address_lines := lines.filter (fun ln => !isAddressDropLine ln)
  let parts := splitNameCompany address_lines
  let phones := extract_phones text
  { first_name := parts.1
    last_name := parts.2.1
    company := parts.2.2.1
    address := normalize_address parts.2.2.2
    email := extract_email text
    phone := phones.phone
    work := phones.work
    mobile := phones.mobile
    home := phones.home }

/-! ## El Paso processor (`processors/tx/el_paso/post_processor.py`) -/

/-- A raw El Paso row: cells keyed by source column name; `row.get(col)`
is `none` both for a missing column and for a null cell. -/
abbrev EPRow := List (String × Option String)

/-- A raw El Paso input table. -/
structure EPTable where
  cols : List String
  rows : List EPRow
deriving DecidableEq, Repr

def getCell (r : EPRow) (c : String) : Option String :=
  (r.lookup c).join

/-- The columns `process` force-creates on the *input* frame
(`df[c] = None` for each missing one, lines 62-74). -/
def epRequiredCols : List String :=
  ["permit_number", "applicant", "licensed_professional", "third_party",
   "owner.address", "owner.company_name", "owner.first_name", "owner.last_name",
   "job_value"]

/-- Lines 62-74: mutate the caller's frame, appending each missing
required column filled with nulls. -/
def elPasoEnsureCols (t : EPTable) : EPTable :=
  let missing := epRequiredCols.filter (fun c => !(t.cols.contains c))
  { cols := t.cols ++ missing
    rows := t.rows.map (fun r => r ++ missing.map (fun c => (c, (none : Option String)))) }

/-- One assembled output row (lines 170-219), tagged with its positional
index in the assembled frame (pandas gives `pd.DataFrame(out_rows)` a
fresh `RangeIndex`). -/
structure EPRowP where
  idx : Nat
  permit_number : Option String
  record_type : Option String
  status : Option String
  application_date : Option String
  project_name : Option String
  description : Option String
  applicant_first_name : Option String
  applicant_last_name : Option String
  applicant_company_name : Option String
  applicant_address : Option String
  applicant_phone : Option String
  applicant_work_phone : Option String
  applicant_mobile_phone : Option String
  applicant_email : Option String
  licensed_professional_first_name : Option String
  licensed_professional_last_name : Option String
  licensed_professional_company_name : Option String
  licensed_professional_address : Option String
  licensed_professional_home_phone_number : Option String
  licensed_professional_mobile_phone_number : Option String
  owner_address : Option String
  owner_company_name : Option String
  owner_first_name : Option String
  owner_last_name : Option String
  third_party_first_name : Option String
  third_party_last_name : Option String
  third_party_company_name : Option String
  third_party_address : Option String
  third_party_phone_number : Option String
  third_party_mobile_phone_number : Option String
  third_party_email : Option String
  job_value : Option String
deriving DecidableEq, Repr

/-- Lines 172-219: build one output row from a raw row; note the phone
coalescing for the licensed professional and the third party. -/
def epBuildRow (idx : Nat) (r : EPRow) : EPRowP :=
  let app := parse_contact_block (getCell r "applicant")
  let lic := parse_contact_block (getCell r "licensed_professional")
  let tp := parse_contact_block (getCell r "third_party")
  let licHome := lic.home <|> lic.phone
  let tpPhone := tp.phone <|> tp.home
  { idx := idx
    permit_number := getCell r "permit_number"
    record_type := getCell r "record_type"
    status := getCell r "status"
    application_date := getCell r "application_date"
    project_name := getCell r "project_name"
    description := getCell r "description"
    applicant_first_name := app.first_name
    applicant_last_name := app.last_name
    applicant_company_name := app.company
    applicant_address := app.address
    applicant_phone := app.phone
    applicant_work_phone := app.work
    applicant_mobile_phone := app.mobile
    applicant_email := app.email
    licensed_professional_first_name := lic.first_name
    licensed_professional_last_name := lic.last_name
    licensed_professional_company_name := lic.company
    licensed_professional_address := lic.address
    licensed_professional_home_phone_number := licHome
    licensed_professional_mobile_phone_number := lic.mobile <|> licHome
    owner_address := getCell r "owner.address"
    owner_company_name := getCell r "owner.company_name"
    owner_first_name := getCell r "owner.first_name"
    owner_last_name := getCell r "owner.last_name"
    third_party_first_name := tp.first_name
    third_party_last_name := tp.last_name
    third_party_company_name := tp.company
    third_party_address := tp.address
    third_party_phone_number := tpPhone
    third_party_mobile_phone_number := tp.mobile <|> tpPhone
    third_party_email := tp.email
    job_value := getCell r "job_value" }

/-- Line 226-227: lowercase `status` and `record_type` (`.str.lower()`
keeps nulls null). -/
def epLowerStage (p : EPRowP) : EPRowP :=
  { p with status := p.status.map lowerStr, record_type := p.record_type.map lowerStr }

def epIncludeRecordTypes : List String := ["residential new", "3rd party residential new"]

def blankToNone (v : Option String) : Option String :=
  if v = some "" then none else v

/-- Line 236: `result.replace(to_replace="", value=np.nan)` over every
string column. -/
def epApplyBlank (p : EPRowP) : EPRowP :=
  { idx := p.idx
    permit_number := blankToNone p.permit_number
    record_type := blankToNone p.record_type
    status := blankToNone p.status
    application_date := p.application_date
    project_name := blankToNone p.project_name
    description := blankToNone p.description
    applicant_first_name := blankToNone p.applicant_first_name
    applicant_last_name := blankToNone p.applicant_last_name
    applicant_company_name := blankToNone p.applicant_company_name
    applicant_address := blankToNone p.applicant_address
    applicant_phone := blankToNone p.applicant_phone
    applicant_work_phone := blankToNone p.applicant_work_phone
    applicant_mobile_phone := blankToNone p.applicant_mobile_phone
    applicant_email := blankToNone p.applicant_email
    licensed_professional_first_name := blankToNone p.licensed_professional_first_name
    licensed_professional_last_name := blankToNone p.licensed_professional_last_name
    licensed_professional_company_name := blankToNone p.licensed_professional_company_name
    licensed_professional_address := blankToNone p.licensed_professional_address
    licensed_professional_home_phone_number := blankToNone p.licensed_professional_home_phone_number
    licensed_professional_mobile_phone_number := blankToNone p.licensed_professional_mobile_phone_number
    owner_address := blankToNone p.owner_address
    owner_company_name := blankToNone p.owner_company_name
    owner_first_name := blankToNone p.owner_first_name
    owner_last_name := blankToNone p.owner_last_name
    third_party_first_name := blankToNone p.third_party_first_name
    third_party_last_name := blankToNone p.third_party_last_name
    third_party_company_name := blankToNone p.third_party_company_name
    third_party_address := blankToNone p.third_party_address
    third_party_phone_number := blankToNone p.third_party_phone_number
    third_party_mobile_phone_number := blankToNone p.third_party_mobile_phone_number
    third_party_email := blankToNone p.third_party_email
    job_value := blankToNone p.job_value }

/-- Line 238-242: keep rows with at least one non-null phone field. -/
def epHasAnyPhone (p : EPRowP) : Bool :=
  p.applicant_phone.isSome || p.applicant_work_phone.isSome ||
    p.applicant_mobile_phone.isSome ||
    p.licensed_professional_home_phone_number.isSome ||
    p.licensed_professional_mobile_phone_number.isSome ||
    p.third_party_phone_number.isSome || p.third_party_mobile_phone_number.isSome

/-- `pair_key` (lines 252-259): a candidate only when both names are
non-null; strip, lowercase and join with `"|"`. -/
def pair_key (first last : Option String) : Option String :=
  match first, last with
  | some f, some l => some (lowerStr (pyStrip f) ++ "|" ++ lowerStr (pyStrip l))
  | _, _ => none

/-- Lines 261-265: candidate priority applicant, licensed professional,
third party, owner. -/
def epGroupKey (p : EPRowP) : Option String :=
  pair_key p.applicant_first_name p.applicant_last_name <|>
    pair_key p.licensed_professional_first_name p.licensed_professional_last_name <|>
    pair_key p.third_party_first_name p.third_party_last_name <|>
    pair_key p.owner_first_name p.owner_last_name

/-- Lines 267-272: per-row synthetic fallback `"UNGROUPED_" + str(index)`. -/
def epGroupKeyFinal (p : EPRowP) : String :=
  (epGroupKey p).getD ("UNGROUPED_" ++ natToString p.idx)

/-- A surviving row just before aggregation: the string columns plus the
formatted date, elapsed days and bucket. -/
structure EPRowA where
  base : EPRowP
  days_since_filling : Int
  bucket : String
deriving DecidableEq, Repr

/-- One aggregated output row: every column merged with
`concatenate_values`, plus the `permit_count` of the group. -/
structure EPMerged where
  permit_number : String
  record_type : String
  status : String
  application_date : String
  project_name : String
  description : String
  applicant_first_name : String
  applicant_last_name : String
  applicant_company_name : String
  applicant_address : String
  applicant_phone : String
  applicant_work_phone : String
  applicant_mobile_phone : String
  applicant_email : String
  licensed_professional_first_name : String
  licensed_professional_last_name : String
  licensed_professional_company_name : String
  licensed_professional_address : String
  licensed_professional_home_phone_number : String
  licensed_professional_mobile_phone_number : String
  owner_address : String
  owner_company_name : String
  owner_first_name : String
  owner_last_name : String
  third_party_first_name : String
  third_party_last_name : String
  third_party_company_name : String
  third_party_address : String
  third_party_phone_number : String
  third_party_mobile_phone_number : String
  third_party_email : String
  job_value : String
  days_since_filling : String
  bucket : String
  permit_count : Nat
deriving DecidableEq, Repr

/-- Python `str(i)` for an integer. -/
def intToString (i : Int) : String :=
  if i < 0 then "-" ++ natToString i.natAbs else natToString i.natAbs

/-- Lines 278-281: merge one group (`concatenate_values` on every column,
`count` on `permit_count`). -/
def epMergeGroup (g : List EPRowA) : EPMerged :=
  { permit_number := concatenate_values (g.map (fun r => r.base.permit_number))
    record_type := concatenate_values (g.map (fun r => r.base.record_type))
    status := concatenate_values (g.map (fun r => r.base.status))
    application_date := concatenate_values (g.map (fun r => r.base.application_date))
    project_name := concatenate_values (g.map (fun r => r.base.project_name))
    description := concatenate_values (g.map (fun r => r.base.description))
    applicant_first_name := concatenate_values (g.map (fun r => r.base.applicant_first_name))
    applicant_last_name := concatenate_values (g.map (fun r => r.base.applicant_last_name))
    applicant_company_name := concatenate_values (g.map (fun r => r.base.applicant_company_name))
    applicant_address := concatenate_values (g.map (fun r => r.base.applicant_address))
    applicant_phone := concatenate_values (g.map (fun r => r.base.applicant_phone))
    applicant_work_phone := concatenate_values (g.map (fun r => r.base.applicant_work_phone))
    applicant_mobile_phone := concatenate_values (g.map (fun r => r.base.applicant_mobile_phone))
    applicant_email := concatenate_values (g.map (fun r => r.base.applicant_email))
    licensed_professional_first_name :=
      concatenate_values (g.map (fun r => r.base.licensed_professional_first_name))
    licensed_professional_last_name :=
      concatenate_values (g.map (fun r => r.base.licensed_professional_last_name))
    licensed_professional_company_name :=
      concatenate_values (g.map (fun r => r.base.licensed_professional_company_name))
    licensed_professional_address :=
      concatenate_values (g.map (fun r => r.base.licensed_professional_address))
    licensed_professional_home_phone_number :=
      concatenate_values (g.map (fun r => r.base.licensed_professional_home_phone_number))
    licensed_professional_mobile_phone_number :=
      concatenate_values (g.map (fun r => r.base.licensed_professional_mobile_phone_number))
    owner_address := concatenate_values (g.map (fun r => r.base.owner_address))
    owner_company_name := concatenate_values (g.map (fun r => r.base.owner_company_name))
    owner_first_name := concatenate_values (g.map (fun r => r.base.owner_first_name))
    owner_last_name := concatenate_values (g.map (fun r => r.base.owner_last_name))
    third_party_first_name := concatenate_values (g.map (fun r => r.base.third_party_first_name))
    third_party_last_name := concatenate_values (g.map (fun r => r.base.third_party_last_name))
    third_party_company_name := concatenate_values (g.map (fun r => r.base.third_party_company_name))
    third_party_address := concatenate_values (g.map (fun r => r.base.third_party_address))
    third_party_phone_number := concatenate_values (g.map (fun r => r.base.third_party_phone_number))
    third_party_mobile_phone_number :=
      concatenate_values (g.map (fun r => r.base.third_party_mobile_phone_number))
    third_party_email := concatenate_values (g.map (fun r => r.base.third_party_email))
    job_value := concatenate_values (g.map (fun r => r.base.job_value))
    days_since_filling :=
      concatenate_values (g.map (fun r => some (intToString r.days_since_filling)))
    bucket := concatenate_values (g.map (fun r => some r.bucket))
    permit_count := g.length }

/-- Line 229-230: record-type membership in the allow-list. -/
def epRecordTypeOK (p : EPRowP) : Bool :=
  match p.record_type with
  | some s => epIncludeRecordTypes.contains s
  | none => false

/-- A date value the non-coerced `pd.to_datetime` of line 232 rejects. -/
def epBadDate (p : EPRowP) : Bool :=
  match p.application_date with
  | some s => (parseDateISO s).isNone
  | none => false

/-- Lines 170-230: row assembly, lowercase of status/record type, and the
record-type filter. -/
def epFilteredRows (t : EPTable) : List EPRowP :=
  ((t.rows.enum.map (fun q => epBuildRow q.1 q.2)).map epLowerStage).filter epRecordTypeOK

/-- Lines 232-250: date parse and dropna, blank-to-null replacement,
phone-presence filter, elapsed days, bucket, bucket/status dropna. -/
def epSurvivors (now : Date) (t : EPTable) : List EPRowA :=
  ((((epFilteredRows t).filterMap (fun p =>
      match p.application_date.bind parseDateISO with
      | some d => some (p, d)
      | none => none)).map (fun q => (epApplyBlank q.1, q.2))).filter
        (fun q => epHasAnyPhone q.1)).filterMap (fun q =>
    match cutBucket (daysBetween now q.2) with
    | some b =>
      if q.1.status.isSome then
        some ({ base := { q.1 with application_date := some (formatDateDMY q.2) }
                days_since_filling := daysBetween now q.2
                bucket := b } : EPRowA)
      else none
    | none => none)

/-- The El Paso transformation pipeline applied to the (already
column-ensured) frame. -/
def elPasoPipeline (now : Date) (t : EPTable) : Except String (List EPMerged) :=
  if (epFilteredRows t).any epBadDate then
    Except.error "ParserError: unparseable application_date"
  else
    Except.ok ((stableGroupBy (fun r : EPRowA => epGroupKeyFinal r.base)
      (epSurvivors now t)).map (fun g => epMergeGroup g.2))

/-- `ElPasoDefaultPostProcessor.process`: returns the state of the
caller's frame after the call (lines 62-74 mutate it) together with the
processed output. -/
def el_paso_process (now : Date) (df : EPTable) :
    EPTable × Except String (List EPMerged) :=
  let ensured := elPasoEnsureCols df
  (ensured, elPasoPipeline now ensured)

/-! ## Arlington processor (`processors/tx/arlington/processor.py`)

The model carries the column subset the specification's claims exercise
(`permit_number`, `building_zip_code`, `status`, `application_date`,
`sub_contractors`, `associated_people`); the remaining desired columns are
pass-through data untouched by any claim. `building_zip_code`,
`application_date`, `status`, `sub_contractors` and `associated_people`
have explicit presence flags because the code reads them unconditionally
(lines 64, 157, 179) or branches on their presence (lines 141-155). -/

/-- One JSON entry of `sub_contractors` / `associated_people`
(`dict.get` on a missing key gives `None`). -/
structure ContactRec where
  type : Option String
  name : Option String
  company_name : Option String
  point_of_contact : Option String
  email : Option String
  phone_number : Option String
  address : Option String
  effective_from : Option String
  effective_to : Option String
  city_registration_number : Option String
deriving DecidableEq, Repr

/-- An all-`None` record, convenient for literals. -/
def emptyContactRec : ContactRec :=
  ⟨none, none, none, none, none, none, none, none, none, none⟩

/-- Python f-string interpolation of a possibly-`None` value. -/
def pyStr (o : Option String) : String := o.getD "None"

/-- Python `x or 'N/A'` (both `None` and `""` are falsy). -/
def orNA (o : Option String) : String :=
  match o with
  | some s => if s = "" then "N/A" else s
  | none => "N/A"

def dashSep : String := "-----------------------------------"

def map_associated_person_block (person : ContactRec) : String :=
  String.intercalate "\n"
    ["Type: " ++ pyStr person.type,
     "Name: " ++ orNA person.name,
     "Email: " ++ orNA person.email,
     "Phone: " ++ orNA person.phone_number,
     "Address: " ++ orNA person.address]

/-- `map_associated_people` (lines 94-109). -/
def map_associated_people (people : List ContactRec) : String :=
  pyStrip (String.intercalate "\n"
    ((people.map (fun p => [map_associated_person_block p, dashSep])).flatten))

def map_sub_contractor_block (c : ContactRec) : String :=
  String.intercalate "\n"
    ["Type: " ++ pyStr c.type,
     "Company Name: " ++ orNA c.company_name,
     "Full Name: " ++ orNA c.point_of_contact,
     "Email: " ++ orNA c.email,
     "Phone: " ++ orNA c.phone_number,
     "Effective from: " ++ orNA c.effective_from,
     "Effective to: " ++ orNA c.effective_to,
     "City registration number: " ++ orNA c.city_registration_number]

/-- `map_sub_contractors` (lines 111-129). -/
def map_sub_contractors (contracts : List ContactRec) : String :=
  pyStrip (String.intercalate "\n"
    ((contracts.map (fun c => [map_sub_contractor_block c, dashSep])).flatten))

/-- `calculate_phone_count` (lines 131-138): count entries whose truthy
phone number has exactly ten digits. -/
def calculate_phone_count (entries : List ContactRec) : Nat :=
  entries.countP (fun info =>
    match info.phone_number with
    | some s => s ≠ "" && (s.data.filter Char.isDigit).length == 10
    | none => false)

/-- A `building_zip_code` cell: null, numeric (floats already truncated
by `astype(int)` semantics), or textual. -/
inductive ZipCell
  | na
  | int (n : Int)
  | str (s : String)
deriving DecidableEq, Repr

/-- Python `int(s)` on a string: optional sign and digits, surrounding
whitespace allowed; anything else raises. -/
def pyIntOfString (s : String) : Option Int :=
  let t := (pyStrip s).data
  match t with
  | [] => none
  | c :: rest =>
    if c = '-' then
      if rest ≠ [] ∧ rest.all Char.isDigit then some (-(digitsToNat rest : Int)) else none
    else if c = '+' then
      if rest ≠ [] ∧ rest.all Char.isDigit then some (digitsToNat rest : Int) else none
    else if (c :: rest).all Char.isDigit then some (digitsToNat (c :: rest) : Int)
    else none

/-- Lines 64-67: `fillna(0)`, `astype(int)`, `astype(str)`,
`replace("0", "")`; a non-numeric string raises `ValueError`. -/
def zipNormalize (z : ZipCell) : Except String String :=
  let zint : Except String Int :=
    match z with
    | ZipCell.na => Except.ok 0
    | ZipCell.int n => Except.ok n
    | ZipCell.str s =>
      match pyIntOfString s with
      | some n => Except.ok n
      | none => Except.error "ValueError: invalid literal for int"
  zint.map (fun n => let s := intToString n; if s = "0" then "" else s)

structure ArlRawRow where
  permit_number : Option String
  building_zip_code : ZipCell
  status : Option String
  application_date : Option String
  sub_contractors : List ContactRec
  associated_people : List ContactRec
deriving DecidableEq, Repr

structure ArlTable where
  hasZip : Bool
  hasStatus : Bool
  hasAppDate : Bool
  hasSubs : Bool
  hasPeople : Bool
  rows : List ArlRawRow
deriving DecidableEq, Repr

/-- Working row between the normalisation and aggregation stages. -/
structure ArlW where
  permit_number : Option String
  zipStr : String
  status : Option String
  appDate : Option Date
  subsInfo : Option String
  subsCount : Option Nat
  peopleInfo : Option String
  peopleCount : Option Nat
  phoneCount : Option Nat
deriving DecidableEq, Repr

structure ArlOutRow where
  permit_number : Option String
  building_zip_code : String
  status : String
  application_date : String
  sub_contractors_info : Option String
  sub_contractors_phone_count : Option Nat
  associated_people_info : Option String
  associated_people_phone_count : Option Nat
  phone_count : Option Nat
  days_since_filling : Int
  bucket : String
deriving DecidableEq, Repr

/-- Lines 70-148: lowercase status (`astype(str)` renders a null as the
string `"nan"`), coerced `%m/%d/%Y` date parse and reformat, and the
info / phone-count columns derived from the contact lists. -/
def arlNormalizeRow (t : ArlTable) (q : ArlRawRow × String) : ArlW :=
  let r := q.1
  { permit_number := r.permit_number
    zipStr := q.2
    status := if t.hasStatus then some (lowerStr (r.status.getD "nan")) else none
    appDate := if t.hasAppDate then r.application_date.bind parseDateMDY else none
    subsInfo := if t.hasSubs then some (map_sub_contractors r.sub_contractors) else none
    subsCount := if t.hasSubs then some (calculate_phone_count r.sub_contractors) else none
    peopleInfo := if t.hasPeople then some (map_associated_people r.associated_people) else none
    peopleCount :=
      if t.hasPeople then some (calculate_phone_count r.associated_people) else none
    phoneCount :=
      if t.hasSubs && t.hasPeople then
        some (calculate_phone_count r.associated_people +
          calculate_phone_count r.sub_contractors)
      else none }

/-- Lines 150-155: keep rows with at least one phone, but only when both
info columns exist. -/
def arlPhoneFiltered (t : ArlTable) (rows : List ArlW) : List ArlW :=
  if t.hasSubs && t.hasPeople then rows.filter (fun w => (w.phoneCount.getD 0) > 0)
  else rows

/-- Line 157: re-parse the formatted dates with `errors` defaulted to
raise (the values are the `%d/%m/%Y` reformats or null). -/
def arlReparse (rows : List ArlW) : Except String (List ArlW) :=
  rows.mapM (fun w =>
    match w.appDate with
    | none => Except.ok w
    | some d =>
      match parseDateDMY (formatDateDMY d) with
      | some d2 => Except.ok { w with appDate := some d2 }
      | none => Except.error "ValueError: unparseable application_date")

/-- Lines 158-179: dropna on application_date, elapsed days, bucket, and
the bucket/status dropna. -/
def arlFinal (now : Date) (rows : List ArlW) : List ArlOutRow :=
  (rows.filterMap (fun w =>
    match w.appDate with
    | some d => some (w, d)
    | none => none)).filterMap (fun q =>
      match cutBucket (daysBetween now q.2) with
      | some b =>
        if q.1.status.isSome then
          some ({ permit_number := q.1.permit_number
                  building_zip_code := q.1.zipStr
                  status := q.1.status.getD ""
                  application_date := formatDateDMY q.2
                  sub_contractors_info := q.1.subsInfo
                  sub_contractors_phone_count := q.1.subsCount
                  associated_people_info := q.1.peopleInfo
                  associated_people_phone_count := q.1.peopleCount
                  phone_count := q.1.phoneCount
                  days_since_filling := daysBetween now q.2
                  bucket := b } : ArlOutRow)
        else none
      | none => none)

/-- `ArlingtonDefaultPostProcessor.process`. The processor copies the
input frame (line 25) and never touches the caller's object, so only the
result table is returned. Note that `process` performs no grouping or
aggregation and produces no `permit_count` column. -/
def arlington_process (now : Date) (t : ArlTable) : Except String (List ArlOutRow) :=
  -- line 64 reads `result['building_zip_code']` unconditionally
  if !t.hasZip then Except.error "KeyError: building_zip_code"
  else
    match t.rows.mapM (fun r => (zipNormalize r.building_zip_code).map (fun z => (r, z))) with
    | Except.error e => Except.error e
    | Except.ok rows1 =>
      -- line 157 reads `result['application_date']` unconditionally
      if !t.hasAppDate then Except.error "KeyError: application_date"
      else
        match arlReparse (arlPhoneFiltered t (rows1.map (arlNormalizeRow t))) with
        | Except.error e => Except.error e
        | Except.ok rows4 =>
          -- line 179 `dropna(subset=['bucket', 'status'])` raises when
          -- the status column is absent
          if !t.hasStatus then Except.error "KeyError: status"
          else Except.ok (arlFinal now rows4)

/-! ## Austin processor (`processors/tx/austin/post_processor.py`)

The model carries the claim-relevant column subset (`permit_type_desc` /
`record_type`, `work_class`, `status_current` / `status`, `applieddate` /
`application_date`, `original_zip` / `building_zip_code`,
`contractor_phone`, `applicant_phone`), already renamed to the canonical
names (line 56-65); the remaining saved columns are untouched
pass-through data. Numeric cells are `Int` (post-`astype(int)`). -/

structure AusRawRow where
  record_type : Option String
  work_class : Option String
  status : Option String
  application_date : Option String
  building_zip_code : Option Int
  contractor_phone : Option Int
  applicant_phone : Option Int
deriving DecidableEq, Repr

structure AusTable where
  hasRecordType : Bool
  hasWorkClass : Bool
  hasStatus : Bool
  hasAppDate : Bool
  hasZip : Bool
  hasPhone : Bool
  hasApplPhone : Bool
  rows : List AusRawRow
deriving DecidableEq, Repr

/-- Working row between normalisation and aggregation. -/
structure AusW where
  record_type : Option String
  work_class : Option String
  status : Option String
  appDate : Option Date
  zipStr : Option String
  phoneStr : Option String
  applPhoneStr : Option String
  days : Option Int
  bucket : Option String
deriving DecidableEq, Repr

/-- `str(pd.Timestamp(...))` for a midnight timestamp, as
`concatenate_values` renders the non-reformatted Austin dates. -/
def formatTimestamp (d : Date) : String :=
  natToString d.year ++ "-" ++ pad2 d.month ++ "-" ++ pad2 d.day ++ " 00:00:00"

/-- Line 89 / line 92: `fillna(0).astype(int).astype(str).replace("0", np.nan)`. -/
def ausPhoneNormalize (p : Option Int) : Option String :=
  let s := intToString (p.getD 0)
  if s = "0" then none else some s

structure AusMerged where
  contractor_phone : String
  record_type : Option String
  work_class : Option String
  status : Option String
  application_date : Option String
  building_zip_code : Option String
  applicant_phone : Option String
  days_since_filling : Option String
  bucket : Option String
  permit_count : Nat
deriving DecidableEq, Repr

/-- Lines 115-118: merge one group; only columns present in the frame are
aggregated (`days_since_filling` is modelled with integer rendering, the
case exercised here). -/
def ausMergeGroup (t : AusTable) (k : String) (g : List AusW) : AusMerged :=
  { contractor_phone := k
    record_type :=
      if t.hasRecordType then some (concatenate_values (g.map (fun w => w.record_type))) else none
    work_class :=
      if t.hasWorkClass then some (concatenate_values (g.map (fun w => w.work_class))) else none
    status := if t.hasStatus then some (concatenate_values (g.map (fun w => w.status))) else none
    application_date :=
      if t.hasAppDate then
        some (concatenate_values (g.map (fun w => w.appDate.map formatTimestamp)))
      else none
    building_zip_code :=
      if t.hasZip then some (concatenate_values (g.map (fun w => w.zipStr))) else none
    applicant_phone :=
      if t.hasApplPhone then
        some (concatenate_values (g.map (fun w => w.applPhoneStr)))
      else none
    days_since_filling :=
      if t.hasAppDate then
        some (concatenate_values (g.map (fun w => w.days.map intToString)))
      else none
    bucket := if t.hasAppDate then some (concatenate_values (g.map (fun w => w.bucket))) else none
    permit_count := g.length }

/-- The processed frame: grouped only when a `contractor_phone` column
exists (line 114). -/
inductive AusOut
  | plain (rows : List AusW)
  | grouped (gs : List AusMerged)
deriving DecidableEq, Repr

/-- Lines 68-76: lowercase of the categorical columns (`astype(str)`
renders nulls as `"nan"`), then the record-type and work-class
allow-list filters. -/
def ausFilteredRaw (t : AusTable) : List AusRawRow :=
  let rows1 := t.rows.map (fun r =>
    { r with
      record_type :=
        if t.hasRecordType then some (lowerStr (r.record_type.getD "nan")) else r.record_type
      work_class :=
        if t.hasWorkClass then some (lowerStr (r.work_class.getD "nan")) else r.work_class
      status := if t.hasStatus then some (lowerStr (r.status.getD "nan")) else r.status })
  let rows2 :=
    if t.hasRecordType then rows1.filter (fun r => r.record_type == some "building permit")
    else rows1
  if t.hasWorkClass then rows2.filter (fun r => r.work_class == some "new") else rows2

/-- Lines 79-109: per-row normalisation of zip, phones, dates, elapsed
days and bucket. -/
def ausBuildW (now : Date) (t : AusTable) (r : AusRawRow) : AusW :=
  let appDate := if t.hasAppDate then r.application_date.bind parseDateISO else none
  let days := if t.hasAppDate then appDate.map (fun d => daysBetween now d) else none
  { record_type := r.record_type
    work_class := r.work_class
    status := r.status
    appDate := appDate
    -- lines 79-80: zip chain ends in `replace("0", "")`
    zipStr :=
      if t.hasZip then
        some (let s := intToString (r.building_zip_code.getD 0); if s = "0" then "" else s)
      else none
    -- lines 88-92: phone chains end in `replace("0", np.nan)`
    phoneStr := if t.hasPhone then ausPhoneNormalize r.contractor_phone else none
    applPhoneStr := if t.hasApplPhone then ausPhoneNormalize r.applicant_phone else none
    days := days
    bucket := if t.hasAppDate then days.bind cutBucket else none }

/-- Line 90: the ten-character contractor-phone filter. -/
def ausPhoneLenOK (w : AusW) : Bool :=
  match w.phoneStr with
  | some s => s.length == 10
  | none => false

/-- Lines 79-111: normalised rows surviving the phone-length filter and
the bucket/status dropna. -/
def ausSurvivors (now : Date) (t : AusTable) : List AusW :=
  let rows4 := (ausFilteredRaw t).map (ausBuildW now t)
  let rows5 := if t.hasPhone then rows4.filter ausPhoneLenOK else rows4
  if t.hasAppDate && t.hasStatus then
    rows5.filter (fun w => w.bucket.isSome && w.status.isSome)
  else rows5

/-- `AustinDefaultPostProcessor.process`. -/
def austin_process (now : Date) (t : AusTable) : Except String AusOut :=
  -- line 85: `pd.to_datetime` without coercion raises on malformed values
  if t.hasAppDate && (ausFilteredRaw t).any (fun r =>
      match r.application_date with
      | some s => (parseDateISO s).isNone
      | none => false) then
    Except.error "ParserError: unparseable application_date"
  else
    -- lines 114-118: default-sorted grouping on contractor_phone
    if t.hasPhone then
      let groups := sortedGroupBy (fun w : AusW => w.phoneStr.getD "") (ausSurvivors now t)
      Except.ok (AusOut.grouped (groups.map (fun kg => ausMergeGroup t kg.1 kg.2)))
    else Except.ok (AusOut.plain (ausSurvivors now t))

/-! ## Generic lemmas about the embedding -/

theorem lookup_append_of_isSome {β : Type} (r ext : List (String × β)) (c : String)
    (h : (r.lookup c).isSome) : (r ++ ext).lookup c = r.lookup c := by
  induction r with
  | nil => simp [List.lookup] at h
  | cons p ps ih =>
    by_cases hc : c == p.1
    · simp [List.lookup, hc]
    · simp only [List.lookup, hc, List.cons_append] at h ⊢
      exact ih h

theorem snd_mem_of_mem_enum {α : Type} {p : Nat × α} {l : List α}
    (h : p ∈ l.enum) : p.2 ∈ l := by
  have h2 : p.2 ∈ l.enum.map Prod.snd := List.mem_map_of_mem Prod.snd h
  simpa [List.enum_map_snd] using h2

theorem mem_stableGroupBy_key {ρ κ : Type} [DecidableEq κ] {key : ρ → κ}
    {rows : List ρ} {kg : κ × List ρ} (h : kg ∈ stableGroupBy key rows) :
    ∃ w ∈ rows, key w = kg.1 := by
  unfold stableGroupBy at h
  rcases List.mem_map.mp h with ⟨k, hk, hkg⟩
  have h1 : kg.1 = k := by rw [← hkg]
  have h2 : k ∈ rows.map key := mem_firstSeenKeys hk
  rcases List.mem_map.mp h2 with ⟨w, hw, hkey⟩
  exact ⟨w, hw, by rw [h1, hkey]⟩

theorem mem_sortedGroupBy {ρ : Type} {key : ρ → String} {rows : List ρ}
    {kg : String × List ρ} (h : kg ∈ sortedGroupBy key rows) :
    kg ∈ stableGroupBy key rows := by
  unfold sortedGroupBy at h
  exact (List.perm_insertionSort _ _).mem_iff.mp h

/-! ## C5, C6, C9 -/

/-- C5: in all three processors the bucket is `pd.cut` over
`bins = [-1, 90, 180]`: day 90 falls in `recently_issued`, day 91 in
`primary_backlog`, and days 181 and -1 fall outside every bucket (the
interval is left-open at -1); and every surviving row's bucket is exactly
`cutBucket` of its `days_since_filling`. -/
theorem bucket_boundary_spec :
    (cutBucket 90 = some "recently_issued" ∧ cutBucket 91 = some "primary_backlog" ∧
      cutBucket 181 = none ∧ cutBucket (-1) = none) ∧
    (∀ (now : Date) (t : ArlTable) (out : List ArlOutRow),
      arlington_process now t = Except.ok out →
      ∀ r ∈ out, cutBucket r.days_since_filling = some r.bucket) ∧
    (∀ (now : Date) (t : EPTable), ∀ r ∈ epSurvivors now t,
      cutBucket r.days_since_filling = some r.bucket) ∧
    (∀ (now : Date) (t : AusTable), t.hasAppDate = true →
      ∀ w ∈ ausSurvivors now t, w.bucket = w.days.bind cutBucket) := by
  refine ⟨by decide, ?_, ?_, ?_⟩
  · intro now t out h r hr
    unfold arlington_process at h
    split at h
    · exact absurd h (by simp)
    · split at h
      · exact absurd h (by simp)
      · split at h
        · exact absurd h (by simp)
        · split at h
          · exact absurd h (by simp)
          · split at h
            · exact absurd h (by simp)
            · rw [Except.ok.injEq] at h
              subst h
              unfold arlFinal at hr
              rcases List.mem_filterMap.mp hr with ⟨q, hq, hf⟩
              cases hc : cutBucket (daysBetween now q.2) with
              | none => simp [hc] at hf
              | some b =>
                simp only [hc] at hf
                split at hf
                · rw [Option.some.injEq] at hf
                  subst hf
                  exact hc
                · exact absurd hf (by simp)
  · intro now t r hr
    unfold epSurvivors at hr
    rcases List.mem_filterMap.mp hr with ⟨q, hq, hf⟩
    cases hc : cutBucket (daysBetween now q.2) with
    | none => simp [hc] at hf
    | some b =>
      simp only [hc] at hf
      split at hf
      · rw [Option.some.injEq] at hf
        subst hf
        exact hc
      · exact absurd hf (by simp)
  · intro now t ha w hw
    unfold ausSurvivors at hw
    have hw5 : w ∈ (if t.hasPhone then
        ((ausFilteredRaw t).map (ausBuildW now t)).filter ausPhoneLenOK
      else (ausFilteredRaw t).map (ausBuildW now t)) := by
      simp only at hw
      split at hw
      · exact (List.mem_filter.mp hw).1
      · exact hw
    have hw4 : w ∈ (ausFilteredRaw t).map (ausBuildW now t) := by
      split at hw5
      · exact (List.mem_filter.mp hw5).1
      · exact hw5
    rcases List.mem_map.mp hw4 with ⟨raw, _, hb⟩
    subst hb
    simp [ausBuildW, ha]

/-- C5 witness: the theorem applied to a one-row Arlington run. -/
def c5Sub : ContactRec := { emptyContactRec with phone_number := some "1234567890" }

def c5Table : ArlTable :=
  { hasZip := true, hasStatus := true, hasAppDate := true, hasSubs := true, hasPeople := true,
    rows := [{ permit_number := some "P1", building_zip_code := ZipCell.int 76010,
               status := some "Active", application_date := some "09/01/2025",
               sub_contractors := [c5Sub], associated_people := [] }] }

theorem bucket_boundary_witness :
    cutBucket 90 = some "recently_issued" ∧
    ∃ out, arlington_process ⟨2025, 10, 12⟩ c5Table = Except.ok out ∧
      ∀ r ∈ out, cutBucket r.days_since_filling = some r.bucket := by
  refine ⟨bucket_boundary_spec.1.1, ?_⟩
  refine ⟨_, rfl, bucket_boundary_spec.2.1 ⟨2025, 10, 12⟩ c5Table _ rfl⟩

/-- C6: `concatenate_values` joins the stringified group values with
`" \n\n<AND> "`; a repeated non-null value yields the value joined with
itself N times, a single value is returned unchanged, and an all-null
group yields `""`. -/
theorem concatenate_values_merge (v : String) (n : Nat) :
    concatenate_values (List.replicate n (some v)) =
      String.intercalate andSeparator (List.replicate n v) ∧
    concatenate_values [some v] = v ∧
    concatenate_values (List.replicate n (none : Option String)) = "" := by
  refine ⟨?_, ?_, ?_⟩
  · cases n with
    | zero => rfl
    | succ m =>
      have hall : (List.replicate (m + 1) (some v)).all Option.isNone = false := by
        simp [List.replicate_succ]
      rw [concatenate_values, hall]
      simp [List.map_replicate]
  · have hall : ([some v] : List (Option String)).all Option.isNone = false := by simp
    rw [concatenate_values, hall]
    rfl
  · have hall : (List.replicate n (none : Option String)).all Option.isNone = true := by
      rw [List.all_eq_true]
      intro x hx
      rw [List.eq_of_mem_replicate hx]
      rfl
    rw [concatenate_values, hall]
    rfl

/-- C9: the El Paso output row coalesces phone labels: licensed
professional home = Home Phone else bare Phone, licensed professional
mobile = Mobile Phone else that home value, third-party phone = bare
Phone else Home Phone, third-party mobile = Mobile Phone else that
phone value. -/
theorem elpaso_phone_coalescing (idx : Nat) (r : EPRow) :
    (epBuildRow idx r).licensed_professional_home_phone_number =
      ((extract_phones (getCell r "licensed_professional")).home <|>
        (extract_phones (getCell r "licensed_professional")).phone) ∧
    (epBuildRow idx r).licensed_professional_mobile_phone_number =
      ((extract_phones (getCell r "licensed_professional")).mobile <|>
        (epBuildRow idx r).licensed_professional_home_phone_number) ∧
    (epBuildRow idx r).third_party_phone_number =
      ((extract_phones (getCell r "third_party")).phone <|>
        (extract_phones (getCell r "third_party")).home) ∧
    (epBuildRow idx r).third_party_mobile_phone_number =
      ((extract_phones (getCell r "third_party")).mobile <|>
        (epBuildRow idx r).third_party_phone_number) :=
  ⟨rfl, rfl, rfl, rfl⟩

/-! ## C8 -/

theorem string_data_inj {s t : String} (h : s.data = t.data) : s = t := by
  cases s
  cases t
  exact congrArg String.mk h

theorem ungrouped_inj {i j : Nat}
    (h : "UNGROUPED_" ++ natToString i = "UNGROUPED_" ++ natToString j) : i = j := by
  have hd := congrArg String.data h
  rw [String.data_append, String.data_append] at hd
  have hd2 := List.append_cancel_left hd
  exact natToString_inj (string_data_inj hd2)

theorem pipe_mem_of_pair_key {f l : Option String} {k : String}
    (h : pair_key f l = some k) : '|' ∈ k.data := by
  cases f with
  | none => simp [pair_key] at h
  | some a =>
    cases l with
    | none => simp [pair_key] at h
    | some b =>
      simp only [pair_key, Option.some.injEq] at h
      subst h
      rw [String.data_append, String.data_append]
      refine List.mem_append.mpr (Or.inl (List.mem_append.mpr (Or.inr ?_)))
      decide

theorem pipe_mem_of_groupKey {p : EPRowP} {k : String}
    (h : epGroupKey p = some k) : '|' ∈ k.data := by
  unfold epGroupKey at h
  cases h1 : pair_key p.applicant_first_name p.applicant_last_name with
  | some k1 =>
    rw [h1] at h
    simp at h
    exact h ▸ pipe_mem_of_pair_key h1
  | none =>
    rw [h1] at h
    simp only [Option.none_orElse] at h
    cases h2 : pair_key p.licensed_professional_first_name p.licensed_professional_last_name with
    | some k2 =>
      rw [h2] at h
      simp at h
      exact h ▸ pipe_mem_of_pair_key h2
    | none =>
      rw [h2] at h
      simp only [Option.none_orElse] at h
      cases h3 : pair_key p.third_party_first_name p.third_party_last_name with
      | some k3 =>
        rw [h3] at h
        simp at h
        exact h ▸ pipe_mem_of_pair_key h3
      | none =>
        rw [h3] at h
        simp only [Option.none_orElse] at h
        exact pipe_mem_of_pair_key h

theorem pipe_not_mem_ungrouped (i : Nat) :
    ¬ '|' ∈ ("UNGROUPED_" ++ natToString i).data := by
  rw [String.data_append]
  intro hmem
  rcases List.mem_append.mp hmem with h | h
  · revert h
    decide
  · have := natDigits_all_digit i '|' h
    exact absurd this (by decide)

/-- C8: rows with no valid name-pair candidate get the distinct synthetic
`"UNGROUPED_" + index` key and never share a group key with each other or
with a row holding a real name-derived key; rows with a candidate take
the first one in the priority order applicant, licensed professional,
third party, owner. -/
theorem groupkey_exclusivity_and_priority (p q : EPRowP) :
    (epGroupKey p = none → epGroupKey q = none → p.idx ≠ q.idx →
      epGroupKeyFinal p ≠ epGroupKeyFinal q) ∧
    (epGroupKey p = none → ∀ k, epGroupKey q = some k →
      epGroupKeyFinal p ≠ epGroupKeyFinal q) ∧
    (∀ k, pair_key p.applicant_first_name p.applicant_last_name = some k →
      epGroupKeyFinal p = k) ∧
    (pair_key p.applicant_first_name p.applicant_last_name = none →
      ∀ k, pair_key p.licensed_professional_first_name p.licensed_professional_last_name = some k →
      epGroupKeyFinal p = k) ∧
    (pair_key p.applicant_first_name p.applicant_last_name = none →
      pair_key p.licensed_professional_first_name p.licensed_professional_last_name = none →
      ∀ k, pair_key p.third_party_first_name p.third_party_last_name = some k →
      epGroupKeyFinal p = k) ∧
    (pair_key p.applicant_first_name p.applicant_last_name = none →
      pair_key p.licensed_professional_first_name p.licensed_professional_last_name = none →
      pair_key p.third_party_first_name p.third_party_last_name = none →
      ∀ k, pair_key p.owner_first_name p.owner_last_name = some k →
      epGroupKeyFinal p = k) ∧
    (epGroupKey p = none → epGroupKeyFinal p = "UNGROUPED_" ++ natToString p.idx) := by
  refine ⟨?_, ?_, ?_, ?_, ?_, ?_, ?_⟩
  · intro h1 h2 hne heq
    rw [epGroupKeyFinal, epGroupKeyFinal, h1, h2] at heq
    simp only [Option.getD_none] at heq
    exact hne (ungrouped_inj heq)
  · intro h1 k h2 heq
    rw [epGroupKeyFinal, epGroupKeyFinal, h1, h2] at heq
    simp only [Option.getD_none, Option.getD_some] at heq
    exact pipe_not_mem_ungrouped p.idx (heq ▸ pipe_mem_of_groupKey h2)
  · intro k hk
    rw [epGroupKeyFinal, epGroupKey, hk]
    rfl
  · intro h1 k hk
    rw [epGroupKeyFinal, epGroupKey, h1, hk]
    rfl
  · intro h1 h2 k hk
    rw [epGroupKeyFinal, epGroupKey, h1, h2, hk]
    rfl
  · intro h1 h2 h3 k hk
    rw [epGroupKeyFinal, epGroupKey, h1, h2, h3, hk]
    rfl
  · intro h1
    rw [epGroupKeyFinal, h1]
    rfl

/-- C8 witness: a nameless row at index 3, a named row at index 1. -/
theorem groupkey_exclusivity_witness :
    epGroupKeyFinal (epBuildRow 3 ([] : EPRow)) = "UNGROUPED_3" ∧
    epGroupKeyFinal (epBuildRow 1 [("applicant", some "John Doe")]) = "john|doe" ∧
    epGroupKeyFinal (epBuildRow 3 ([] : EPRow)) ≠
      epGroupKeyFinal (epBuildRow 1 [("applicant", some "John Doe")]) := by
  refine ⟨?_, ?_, ?_⟩
  · exact ((groupkey_exclusivity_and_priority (epBuildRow 3 ([] : EPRow))
      (epBuildRow 1 [("applicant", some "John Doe")])).2.2.2.2.2.2 (by rfl)).trans (by decide)
  · exact (groupkey_exclusivity_and_priority (epBuildRow 1 [("applicant", some "John Doe")])
      (epBuildRow 3 ([] : EPRow))).2.2.1 "john|doe" (by decide)
  · exact (groupkey_exclusivity_and_priority (epBuildRow 3 ([] : EPRow))
      (epBuildRow 1 [("applicant", some "John Doe")])).2.1 (by rfl) "john|doe" (by decide)

/-! ## C7 -/

def c7Row (ph : Int) : AusRawRow :=
  { record_type := none, work_class := none, status := none, application_date := none,
    building_zip_code := none, contractor_phone := some ph, applicant_phone := none }

def c7Table : AusTable :=
  { hasRecordType := false, hasWorkClass := false, hasStatus := false, hasAppDate := false,
    hasZip := false, hasPhone := true, hasApplPhone := false,
    rows := [c7Row 9999999999, c7Row 1111111111] }

/-- C7 counterexample: Austin's `groupby` (pandas default `sort=True`)
emits the groups in ascending key order, not in first-seen order: with
phones 9999999999 then 1111111111, the first output row carries the
second-seen key. -/
theorem grouping_order_counterexample :
    (match austin_process ⟨2025, 10, 12⟩ c7Table with
     | Except.ok (AusOut.grouped gs) => gs.map (fun g => g.contractor_phone)
     | _ => []) = ["1111111111", "9999999999"] ∧
    firstSeenKeys ((ausSurvivors ⟨2025, 10, 12⟩ c7Table).map
      (fun w => w.phoneStr.getD "")) = ["9999999999", "1111111111"] ∧
    (["1111111111", "9999999999"] : List String) ≠ ["9999999999", "1111111111"] := by
  refine ⟨rfl, rfl, by decide⟩

/-- C7 amended: El Paso's aggregation (`sort=False`) emits groups in
first-seen key order; Austin's aggregation (pandas default sort) emits
groups in ascending key order; Arlington performs no aggregation. -/
theorem grouping_order_amended :
    (∀ rows : List EPRowA,
      (stableGroupBy (fun r : EPRowA => epGroupKeyFinal r.base) rows).map Prod.fst =
        firstSeenKeys (rows.map (fun r : EPRowA => epGroupKeyFinal r.base))) ∧
    (∀ rows : List AusW,
      List.Sorted strLe
        ((sortedGroupBy (fun w : AusW => w.phoneStr.getD "") rows).map Prod.fst)) := by
  constructor
  · intro rows
    exact stableGroupBy_keys _ _
  · intro rows
    unfold sortedGroupBy
    haveI hTot : IsTotal (String × List AusW) (fun a b => strLe a.1 b.1) :=
      ⟨fun a b => IsTotal.total a.1 b.1⟩
    haveI hTrans : IsTrans (String × List AusW) (fun a b => strLe a.1 b.1) :=
      ⟨fun a b c hab hbc => IsTrans.trans (r := strLe) a.1 b.1 c.1 hab hbc⟩
    have hs := List.sorted_insertionSort (fun a b : String × List AusW => strLe a.1 b.1)
      (stableGroupBy (fun w : AusW => w.phoneStr.getD "") rows)
    exact List.Pairwise.map Prod.fst (fun a b hab => hab) hs

/-! ## C10 -/

theorem ausSurvivors_phone {now : Date} {t : AusTable} (h : t.hasPhone = true)
    {w : AusW} (hw : w ∈ ausSurvivors now t) :
    ∃ s, w.phoneStr = some s ∧ s.length = 10 ∧ ∃ n : Int, n ≠ 0 ∧ s = intToString n := by
  unfold ausSurvivors at hw
  simp only [h, if_true] at hw
  have hw5 : w ∈ ((ausFilteredRaw t).map (ausBuildW now t)).filter ausPhoneLenOK := by
    split at hw
    · exact (List.mem_filter.mp hw).1
    · exact hw
  have hmem := List.mem_filter.mp hw5
  rcases List.mem_map.mp hmem.1 with ⟨r, hr, hbw⟩
  have hps : w.phoneStr = ausPhoneNormalize r.contractor_phone := by
    rw [← hbw]
    simp [ausBuildW, h]
  cases hn : ausPhoneNormalize r.contractor_phone with
  | none =>
    have hlen := hmem.2
    rw [ausPhoneLenOK] at hlen
    rw [hps, hn] at hlen
    simp at hlen
  | some s =>
    refine ⟨s, by rw [hps, hn], ?_, ?_⟩
    · have hlen := hmem.2
      rw [ausPhoneLenOK] at hlen
      rw [hps, hn] at hlen
      simpa using hlen
    · simp only [ausPhoneNormalize] at hn
      by_cases hz : intToString (r.contractor_phone.getD 0) = "0"
      · rw [if_pos hz] at hn
        cases hn
      · rw [if_neg hz] at hn
        rw [Option.some.injEq] at hn
        refine ⟨r.contractor_phone.getD 0, ?_, hn.symm⟩
        intro h0
        apply hz
        rw [h0]
        rfl

def c10Row : AusRawRow :=
  { record_type := none, work_class := none, status := none, application_date := none,
    building_zip_code := none, contractor_phone := some (-123456789), applicant_phone := none }

def c10Table : AusTable :=
  { hasRecordType := false, hasWorkClass := false, hasStatus := false, hasAppDate := false,
    hasZip := false, hasPhone := true, hasApplPhone := false, rows := [c10Row] }

/-- C10 counterexample: a negative numeric phone survives the
ten-character filter, so the output key is a ten-character string that is
not made of ten digit characters. -/
theorem austin_phone_key_counterexample :
    (match austin_process ⟨2025, 10, 12⟩ c10Table with
     | Except.ok (AusOut.grouped gs) =>
       gs.map (fun g => (g.contractor_phone, g.contractor_phone.length,
         g.contractor_phone.data.all Char.isDigit))
     | _ => []) = [("-123456789", 10, false)] := by
  rfl

/-- C10 amended: whenever the input has a contractor_phone column, every
output contractor_phone is a ten-character string, namely the decimal
representation of the nonzero integerised input value (all digits except
for a possible leading minus sign); rows whose phone is missing, zero, or
whose representation is not exactly ten characters are dropped, and
grouping keys on this string. -/
theorem austin_phone_key_amended (now : Date) (t : AusTable) (h : t.hasPhone = true)
    (gs : List AusMerged) (hout : austin_process now t = Except.ok (AusOut.grouped gs)) :
    ∀ g ∈ gs, g.contractor_phone.length = 10 ∧
      ∃ n : Int, n ≠ 0 ∧ g.contractor_phone = intToString n := by
  intro g hg
  unfold austin_process at hout
  split at hout
  · exact absurd hout (by simp)
  · simp only [Except.ok.injEq, AusOut.grouped.injEq] at hout
    subst hout
    rcases List.mem_map.mp hg with ⟨kg, hkg, hmg⟩
    have hkey : g.contractor_phone = kg.1 := by
      rw [← hmg]
      rfl
    have hst := mem_sortedGroupBy hkg
    rcases mem_stableGroupBy_key hst with ⟨w, hw, hkw⟩
    rcases ausSurvivors_phone h hw with ⟨s, hs, hlen, n, hn0, hsn⟩
    have hk2 : kg.1 = s := by
      rw [← hkw, hs]
      rfl
    rw [hkey, hk2]
    exact ⟨hlen, n, hn0, hsn⟩

def c10wRow : AusRawRow :=
  { record_type := none, work_class := none, status := none, application_date := none,
    building_zip_code := none, contractor_phone := some 5551234567, applicant_phone := none }

def c10wTable : AusTable :=
  { hasRecordType := false, hasWorkClass := false, hasStatus := false, hasAppDate := false,
    hasZip := false, hasPhone := true, hasApplPhone := false, rows := [c10wRow] }

def c10wMerged : AusMerged :=
  { contractor_phone := "5551234567", record_type := none, work_class := none, status := none,
    application_date := none, building_zip_code := none, applicant_phone := none,
    days_since_filling := none, bucket := none, permit_count := 1 }

/-- C10 witness: the amended theorem applied to a one-row table. -/
theorem austin_phone_key_witness :
    c10wMerged.contractor_phone.length = 10 ∧
    ∃ n : Int, n ≠ 0 ∧ c10wMerged.contractor_phone = intToString n :=
  austin_phone_key_amended ⟨2025, 10, 12⟩ c10wTable rfl [c10wMerged] (by rfl)
    c10wMerged (List.mem_singleton.mpr rfl)

/-! ## C1 -/

def c1SubA : ContactRec :=
  { emptyContactRec with
    type := some "Electrical"
    company_name := some "Acme Electric"
    phone_number := some "5550001111" }

def c1SubB : ContactRec :=
  { emptyContactRec with
    type := some "Plumbing"
    company_name := some "Bravo Plumbing"
    phone_number := some "5550002222" }

def c1ArlRow (c : ContactRec) : ArlRawRow :=
  { permit_number := some "BLD-1", building_zip_code := ZipCell.int 76010,
    status := some "Active", application_date := some "09/01/2025",
    sub_contractors := [c], associated_people := [] }

def c1ArlTable : ArlTable :=
  { hasZip := true, hasStatus := true, hasAppDate := true, hasSubs := true, hasPeople := true,
    rows := [c1ArlRow c1SubA, c1ArlRow c1SubB] }

def c1InfoA : String := map_sub_contractors [c1SubA]

def c1InfoB : String := map_sub_contractors [c1SubB]

def c1ArlInfos : List (Option String) :=
  match arlington_process ⟨2025, 10, 12⟩ c1ArlTable with
  | Except.ok rows => rows.map (fun r => r.sub_contractors_info)
  | Except.error _ => []

set_option maxRecDepth 40000 in
/-- C1 counterexample: the Arlington processor performs no aggregation;
two otherwise-identical rows with distinct sub-contractor info strings
remain two rows, and no row carries the concatenated
`A \n\n<AND> B` value. -/
theorem arlington_scenario_counterexample :
    c1ArlInfos = [some c1InfoA, some c1InfoB] ∧
    ¬ some (c1InfoA ++ andSeparator ++ c1InfoB) ∈ c1ArlInfos := by
  refine ⟨rfl, ?_⟩
  rw [show c1ArlInfos = [some c1InfoA, some c1InfoB] from rfl]
  decide

def c1EpRow (desc : String) : EPRow :=
  [("record_type", some "Residential New"), ("status", some "Active"),
   ("application_date", some "2025-09-01"),
   ("applicant", some "John Doe\nPhone: 1234567890"),
   ("description", some desc)]

def c1EpTable : EPTable :=
  { cols := ["record_type", "status", "application_date", "applicant", "description"],
    rows := [c1EpRow "A", c1EpRow "B"] }

set_option maxRecDepth 40000 in
/-- C1 amended: Arlington leaves the two rows unmerged; the described
concatenation is the behaviour of the shared aggregator as used by the
El Paso processor, where two rows sharing an applicant name fold into one
row with the values joined by `" \n\n<AND> "` and `permit_count = 2`. -/
theorem arlington_scenario_amended :
    c1ArlInfos = [some c1InfoA, some c1InfoB] ∧
    (match (el_paso_process ⟨2025, 10, 12⟩ c1EpTable).2 with
     | Except.ok ms => ms.map (fun m => (m.description, m.permit_count))
     | Except.error _ => []) = [("A \n\n<AND> B", 2)] :=
  ⟨rfl, rfl⟩

/-! ## C2 -/

def c2Table : ArlTable :=
  { hasZip := false, hasStatus := true, hasAppDate := true, hasSubs := true, hasPeople := true,
    rows := [{ permit_number := some "P1", building_zip_code := ZipCell.na,
               status := some "Active", application_date := some "09/01/2025",
               sub_contractors := [], associated_people := [] }] }

set_option maxRecDepth 40000 in
/-- C2 counterexample: the Arlington processor reads
`result['building_zip_code']` unconditionally, so a table without that
column raises `KeyError` instead of treating the field as unavailable. -/
theorem missing_column_counterexample :
    arlington_process ⟨2025, 10, 12⟩ c2Table =
      Except.error "KeyError: building_zip_code" := rfl

theorem lookup_append_of_none {β : Type} (r ext : List (String × β)) (c : String)
    (h : r.lookup c = none) : (r ++ ext).lookup c = ext.lookup c := by
  induction r with
  | nil => rfl
  | cons p ps ih =>
    by_cases hc : c == p.1
    · simp [List.lookup, hc] at h
    · simp only [List.lookup, hc, List.cons_append] at h ⊢
      exact ih h

theorem lookup_all_none {ext : EPRow} (hext : ∀ p ∈ ext, p.2 = none) (c : String) :
    (ext.lookup c).join = none := by
  induction ext with
  | nil => rfl
  | cons p ps ih =>
    by_cases hc : c == p.1
    · simp only [List.lookup, hc]
      exact hext p (List.mem_cons_self p ps)
    · simp only [List.lookup, hc]
      exact ih (fun q hq => hext q (List.mem_cons_of_mem p hq))

theorem getCell_append_none {r ext : EPRow} {c : String}
    (h : getCell r c = none) (hext : ∀ p ∈ ext, p.2 = none) :
    getCell (r ++ ext) c = none := by
  unfold getCell at h ⊢
  cases hl : r.lookup c with
  | some v =>
    rw [lookup_append_of_isSome r ext c (by rw [hl]; rfl), hl]
    rw [hl] at h
    exact h
  | none =>
    rw [lookup_append_of_none r ext c hl]
    exact lookup_all_none hext c

theorem epFilteredRows_eq_nil {t : EPTable}
    (h : ∀ r ∈ t.rows, getCell r "record_type" = none) :
    epFilteredRows t = [] := by
  unfold epFilteredRows
  rw [List.filter_eq_nil_iff]
  intro a ha
  rcases List.mem_map.mp ha with ⟨b, hb, hba⟩
  rcases List.mem_map.mp hb with ⟨q, hq, hqb⟩
  have hrow : q.2 ∈ t.rows := snd_mem_of_mem_enum hq
  have hrt : (epBuildRow q.1 q.2).record_type = none := h q.2 hrow
  subst hqb
  subst hba
  simp [epLowerStage, epRecordTypeOK, hrt]

/-- C2 amended: the El Paso and Austin processors treat absent expected
columns as field-unavailable and run to completion (El Paso with an empty
result when record_type is absent everywhere, Austin whenever the
application-date column is absent); the Arlington processor tolerates
absence only of its guarded columns and raises on `building_zip_code`,
`application_date`, or `status`. -/
theorem missing_column_amended (now : Date) (t : EPTable) (t2 : AusTable)
    (h : ∀ r ∈ t.rows, getCell r "record_type" = none)
    (h2 : t2.hasAppDate = false) :
    (el_paso_process now t).2 = Except.ok [] ∧
    ∃ out, austin_process now t2 = Except.ok out := by
  constructor
  · show elPasoPipeline now (elPasoEnsureCols t) = Except.ok []
    have hens : ∀ r ∈ (elPasoEnsureCols t).rows, getCell r "record_type" = none := by
      intro r hr
      rcases List.mem_map.mp hr with ⟨r0, hr0, hre⟩
      subst hre
      refine getCell_append_none (h r0 hr0) ?_
      intro p hp
      rcases List.mem_map.mp hp with ⟨c0, hc0, hpc⟩
      subst hpc
      rfl
    have hnil := epFilteredRows_eq_nil hens
    have hsurv : epSurvivors now (elPasoEnsureCols t) = [] := by
      unfold epSurvivors
      rw [hnil]
      rfl
    unfold elPasoPipeline
    rw [hnil, hsurv]
    rfl
  · by_cases hp : t2.hasPhone = true
    · refine ⟨AusOut.grouped ((sortedGroupBy (fun w : AusW => w.phoneStr.getD "")
        (ausSurvivors now t2)).map (fun kg => ausMergeGroup t2 kg.1 kg.2)), ?_⟩
      unfold austin_process
      rw [h2]
      simp [hp]
    · refine ⟨AusOut.plain (ausSurvivors now t2), ?_⟩
      unfold austin_process
      rw [h2]
      simp [hp]

def c2wTable : EPTable := { cols := [], rows := [[], []] }

def c2wAusTable : AusTable :=
  { hasRecordType := false, hasWorkClass := false, hasStatus := false, hasAppDate := false,
    hasZip := false, hasPhone := false, hasApplPhone := false,
    rows := [{ record_type := none, work_class := none, status := none,
               application_date := none, building_zip_code := none,
               contractor_phone := none, applicant_phone := none }] }

/-- C2 witness: the amended theorem applied to a two-row table with no
columns at all and an Austin table with every column absent. -/
theorem missing_column_witness :
    (el_paso_process ⟨2025, 10, 12⟩ c2wTable).2 = Except.ok [] ∧
    ∃ out, austin_process ⟨2025, 10, 12⟩ c2wAusTable = Except.ok out :=
  missing_column_amended ⟨2025, 10, 12⟩ c2wTable c2wAusTable
    (by
      intro r hr
      have h : r = [] := by simpa [c2wTable] using hr
      subst h
      rfl) rfl

/-! ## C3 -/

def c3Table : EPTable := { cols := ["record_type"], rows := [[("record_type", some "x")]] }

/-- C3 counterexample: El Paso's `process` mutates the caller's frame by
appending the missing required input columns (lines 62-74); after the
call, the input no longer has exactly its original columns. -/
theorem elpaso_mutation_counterexample :
    (el_paso_process ⟨2025, 10, 12⟩ c3Table).1 ≠ c3Table := by decide

/-- C3 amended: Arlington and Austin never touch the caller's frame (they
copy before transforming); El Paso's only mutation is appending its
missing required columns filled with nulls — the original columns keep
their order and every existing cell keeps its value. -/
theorem elpaso_mutation_amended (now : Date) (t : EPTable) :
    (el_paso_process now t).1.cols =
      t.cols ++ epRequiredCols.filter (fun c => !(t.cols.contains c)) ∧
    (el_paso_process now t).1.rows =
      t.rows.map (fun r =>
        r ++ (epRequiredCols.filter (fun c => !(t.cols.contains c))).map
          (fun c => (c, (none : Option String)))) ∧
    (∀ (r ext : EPRow) (c : String), (r.lookup c).isSome →
      (r ++ ext).lookup c = r.lookup c) := by
  refine ⟨rfl, rfl, ?_⟩
  intro r ext c hc
  exact lookup_append_of_isSome r ext c hc

/-- C3 witness: the amended theorem applied to a concrete row, extension
and column. -/
theorem elpaso_mutation_witness :
    (([("status", some "Active")] : EPRow) ++ [("applicant", none)]).lookup "status" =
      ([("status", some "Active")] : EPRow).lookup "status" :=
  (elpaso_mutation_amended ⟨2025, 10, 12⟩ c3Table).2.2
    [("status", some "Active")] [("applicant", none)] "status" (by decide)

/-! ## C4 -/

def c4Table : EPTable :=
  { cols := ["record_type", "application_date"],
    rows := [[("record_type", some "Residential New"), ("application_date", some "not-a-date")]] }

set_option maxRecDepth 40000 in
/-- C4 counterexample: El Paso parses `application_date` without
coercion (line 232), so one malformed date string on a surviving row
raises instead of degrading to null. -/
theorem malformed_value_counterexample :
    (el_paso_process ⟨2025, 10, 12⟩ c4Table).2 =
      Except.error "ParserError: unparseable application_date" := rfl

def c4ArlSub : ContactRec := { emptyContactRec with phone_number := some "5550003333" }

def c4ArlRow (d : Option String) : ArlRawRow :=
  { permit_number := some "P1", building_zip_code := ZipCell.int 76010,
    status := some "Active", application_date := d,
    sub_contractors := [c4ArlSub], associated_people := [] }

def c4ArlTable : ArlTable :=
  { hasZip := true, hasStatus := true, hasAppDate := true, hasSubs := true, hasPeople := true,
    rows := [c4ArlRow (some "09/01/2025"), c4ArlRow (some "garbage-date")] }

def c4ZipTable : ArlTable :=
  { hasZip := true, hasStatus := true, hasAppDate := true, hasSubs := true, hasPeople := true,
    rows := [{ permit_number := some "P2", building_zip_code := ZipCell.str "abc",
               status := some "Active", application_date := some "09/01/2025",
               sub_contractors := [c4ArlSub], associated_people := [] }] }

set_option maxRecDepth 40000 in
/-- C4 amended: the coerced Arlington date normalizer degrades a
malformed date to null without raising and the row is dropped by the
date filter; but malformed values are not tolerated everywhere — El Paso
parses dates without coercion and raises (see the counterexample), and a
non-numeric zip string raises `ValueError` in Arlington's
`astype(int)` cast. -/
theorem malformed_value_amended :
    (match arlington_process ⟨2025, 10, 12⟩ c4ArlTable with
     | Except.ok rows => rows.map (fun r => r.application_date)
     | Except.error _ => []) = ["01/09/2025"] ∧
    arlington_process ⟨2025, 10, 12⟩ c4ZipTable =
      Except.error "ValueError: invalid literal for int" :=
  ⟨rfl, rfl⟩
